import Mathlib

/-!
Verification of the punishment-escalation and connection-monitoring subsystem
of the VPN-panel Telegram bot.

The violation store is embedded from `src/db/crud/violations.py`
(`ViolationHistoryCRUD`): the database table is a list of rows in insertion
order, `time.time()` is passed explicitly as an integer-second clock value,
and the SQL queries become list operations (`WHERE` is `filter`,
`ORDER BY timestamp DESC` is a descending insertion sort, `DELETE` removes
matching rows and reports the rowcount).

The administrative command handlers `punishment_set_window` and
`punishment_set_steps` are embedded from `src/telegram_bot/main.py`; the JSON
payloads they validate are modelled by a small JSON value type that keeps the
distinctions the Python code can observe (`isinstance(x, int)` is true for
Python booleans, since `bool` is a subclass of `int`).

The files `utils/punishment_system.py` and `utils/warning_system.py` are
imported by the bot but are not part of the repository snapshot; the
definitions that stand for them are marked `Modelled from the spec:` and
follow the specification text.
-/

/-- Row of the `ViolationHistory` table (`src/db/models`, as used by
`src/db/crud/violations.py`). Timestamps are seconds since the epoch,
modelled as integers. -/
structure ViolationHistory where
  username : String
  timestamp : Int
  step_applied : Int
  disable_duration : Int
  ip_count : Option Int
  ips : Option (List String)
deriving DecidableEq

/-- One step of SQL `DELETE ... WHERE p`: remove every row matching `p`,
returning the remaining rows (in order) and the rowcount of deleted rows. -/
def deleteWhere (p : ViolationHistory → Bool) : List ViolationHistory → List ViolationHistory × Nat
  | [] => ([], 0)
  | v :: rest =>
    let r := deleteWhere p rest
    if p v then (r.fst, r.snd + 1) else (v :: r.fst, r.snd)

/-- Insert a row into a list kept in descending-timestamp order
(newest first), used to model SQL `ORDER BY timestamp DESC`. -/
def insertDesc (v : ViolationHistory) : List ViolationHistory → List ViolationHistory
  | [] => [v]
  | w :: rest =>
    if w.timestamp ≤ v.timestamp then v :: w :: rest else w :: insertDesc v rest

/-- Sort rows by descending timestamp (newest first), modelling SQL
`ORDER BY timestamp DESC`. -/
def sortDesc : List ViolationHistory → List ViolationHistory
  | [] => []
  | v :: rest => insertDesc v (sortDesc rest)

/-- `ViolationHistoryCRUD.add`: builds a row with `timestamp = time.time()`
(the explicit `now` argument here), inserts it, and returns it. -/
def ViolationHistoryCRUD.add (db : List ViolationHistory) (username : String)
    (step_applied : Int) (disable_duration : Int) (ip_count : Option Int)
    (ips : Option (List String)) (now : Int) : List ViolationHistory × ViolationHistory :=
  let violation : ViolationHistory :=
    ⟨username, now, step_applied, disable_duration, ip_count, ips⟩
  (db ++ [violation], violation)

/-- `ViolationHistoryCRUD.get_user_violations`: rows with this username and
`timestamp ≥ now - window_hours * 3600`, ordered by descending timestamp. -/
def ViolationHistoryCRUD.get_user_violations (db : List ViolationHistory)
    (username : String) (window_hours : Int) (now : Int) : List ViolationHistory :=
  sortDesc (db.filter (fun v =>
    v.username == username && decide (now - window_hours * 3600 ≤ v.timestamp)))

/-- `ViolationHistoryCRUD.get_violation_count`: count of rows with this
username and `timestamp ≥ now - window_hours * 3600`. -/
def ViolationHistoryCRUD.get_violation_count (db : List ViolationHistory)
    (username : String) (window_hours : Int) (now : Int) : Nat :=
  (db.filter (fun v =>
    v.username == username && decide (now - window_hours * 3600 ≤ v.timestamp))).length

/-- `ViolationHistoryCRUD.clear_user`: delete every row of this username,
returning the remaining table and the deleted rowcount. -/
def ViolationHistoryCRUD.clear_user (db : List ViolationHistory)
    (username : String) : List ViolationHistory × Nat :=
  deleteWhere (fun v => v.username == username) db

/-- `ViolationHistoryCRUD.clear_all`: delete every row, returning the empty
table and the deleted rowcount. -/
def ViolationHistoryCRUD.clear_all (db : List ViolationHistory) : List ViolationHistory × Nat :=
  deleteWhere (fun _ => true) db

/-! Permutation and sortedness facts about the `ORDER BY timestamp DESC` model. -/

theorem insertDesc_perm (v : ViolationHistory) (l : List ViolationHistory) :
    (insertDesc v l).Perm (v :: l) := by
  induction l with
  | nil => exact List.Perm.refl _
  | cons w rest ih =>
    rw [insertDesc]
    by_cases h : w.timestamp ≤ v.timestamp
    · rw [if_pos h]
    · rw [if_neg h]
      exact (ih.cons w).trans (List.Perm.swap v w rest)

theorem sortDesc_perm (l : List ViolationHistory) : (sortDesc l).Perm l := by
  induction l with
  | nil => exact List.Perm.refl _
  | cons v rest ih =>
    rw [sortDesc]
    exact (insertDesc_perm v (sortDesc rest)).trans (ih.cons v)

theorem insertDesc_pairwise (v : ViolationHistory) (l : List ViolationHistory)
    (h : l.Pairwise (fun a b => b.timestamp ≤ a.timestamp)) :
    (insertDesc v l).Pairwise (fun a b => b.timestamp ≤ a.timestamp) := by
  induction l with
  | nil => simp [insertDesc]
  | cons w rest ih =>
    rw [insertDesc]
    rcases List.pairwise_cons.mp h with ⟨hw, hrest⟩
    by_cases hc : w.timestamp ≤ v.timestamp
    · rw [if_pos hc]
      refine List.pairwise_cons.mpr ⟨?_, h⟩
      intro b hb
      rcases List.mem_cons.mp hb with rfl | hbr
      · exact hc
      · exact le_trans (hw b hbr) hc
    · rw [if_neg hc]
      refine List.pairwise_cons.mpr ⟨?_, ih hrest⟩
      intro b hb
      have hb2 : b ∈ v :: rest := (insertDesc_perm v rest).mem_iff.mp hb
      rcases List.mem_cons.mp hb2 with rfl | hbr
      · omega
      · exact hw b hbr

theorem sortDesc_pairwise (l : List ViolationHistory) :
    (sortDesc l).Pairwise (fun a b => b.timestamp ≤ a.timestamp) := by
  induction l with
  | nil => simp [sortDesc]
  | cons v rest ih =>
    rw [sortDesc]
    exact insertDesc_pairwise v (sortDesc rest) ih

/-! Facts about the `DELETE ... WHERE` model. -/

theorem deleteWhere_fst (p : ViolationHistory → Bool) (l : List ViolationHistory) :
    (deleteWhere p l).fst = l.filter (fun v => !(p v)) := by
  induction l with
  | nil => rfl
  | cons v rest ih =>
    rw [deleteWhere]
    by_cases hp : p v = true
    · simp [hp, ih]
    · simp [List.filter_cons, hp, ih]

theorem deleteWhere_snd (p : ViolationHistory → Bool) (l : List ViolationHistory) :
    (deleteWhere p l).snd = (l.filter p).length := by
  induction l with
  | nil => rfl
  | cons v rest ih =>
    rw [deleteWhere]
    by_cases hp : p v = true
    · simp [List.filter_cons, hp, ih]
    · simp [List.filter_cons, hp, ih]

theorem filter_sub_filter_not (p q : ViolationHistory → Bool)
    (h : ∀ v, q v = true → p v = true) (l : List ViolationHistory) :
    (l.filter (fun v => !(p v))).filter q = [] := by
  induction l with
  | nil => rfl
  | cons v rest ih =>
    by_cases hp : p v = true
    · simp [List.filter_cons, hp, ih]
    · have hq : q v = false := by
        cases hqv : q v
        · rfl
        · exact absurd (h v hqv) hp
      simp [List.filter_cons, hp, hq, ih]

theorem filter_comm_not (p q : ViolationHistory → Bool)
    (h : ∀ v, q v = true → p v = false) (l : List ViolationHistory) :
    (l.filter (fun v => !(p v))).filter q = l.filter q := by
  induction l with
  | nil => rfl
  | cons v rest ih =>
    by_cases hp : p v = true
    · have hq : q v = false := by
        cases hqv : q v
        · rfl
        · rw [h v hqv] at hp
          exact absurd hp (by simp)
      simp [List.filter_cons, hp, hq, ih]
    · cases hqv : q v
      · simp [List.filter_cons, hp, hqv, ih]
      · simp [List.filter_cons, hp, hqv, ih]

/-- Claim C1: a violation record added for user `u` at time `T` is counted by
`get_violation_count u w` evaluated at time `Tq` exactly when
`Tq - T ≤ w * 3600`; the boundary `Tq - T = w * 3600` is counted, anything
older is not. The count over the extended table exceeds the count over the
old table by one precisely under that condition. -/
theorem violation_count_window_boundary (db : List ViolationHistory) (u : String)
    (step dur : Int) (ipc : Option Int) (ipl : Option (List String)) (T Tq w : Int) :
    ViolationHistoryCRUD.get_violation_count
        (ViolationHistoryCRUD.add db u step dur ipc ipl T).fst u w Tq
      = ViolationHistoryCRUD.get_violation_count db u w Tq
        + (if Tq - T ≤ w * 3600 then 1 else 0) := by
  simp only [ViolationHistoryCRUD.add, ViolationHistoryCRUD.get_violation_count,
    List.filter_append, List.length_append]
  by_cases h : Tq - T ≤ w * 3600
  · have hc : Tq ≤ T + w * 3600 := by omega
    simp [List.filter_cons, h, hc]
  · have hc : T + w * 3600 < Tq := by omega
    simp [List.filter_cons, h, hc]

/-- Claim C4: clearing a user's violation history and then querying the
violation count for that user returns 0, for any window and any prior table
contents. -/
theorem clear_user_then_count_zero (db : List ViolationHistory) (u : String)
    (w now : Int) :
    ViolationHistoryCRUD.get_violation_count
        (ViolationHistoryCRUD.clear_user db u).fst u w now = 0 := by
  have hz := filter_sub_filter_not (fun v => v.username == u)
    (fun v => v.username == u && decide (now - w * 3600 ≤ v.timestamp))
    (by
      intro v hv
      simp only [Bool.and_eq_true] at hv
      exact hv.1) db
  rw [ViolationHistoryCRUD.clear_user, deleteWhere_fst,
    ViolationHistoryCRUD.get_violation_count, hz]
  rfl

/-- Claim C5: `get_user_violations u w` evaluated at time `now` returns
exactly the records whose username is `u` and whose timestamp lies within the
last `w * 3600` seconds (a permutation of that sublist, so the same records
with multiplicity), ordered newest first by descending timestamp. -/
theorem get_user_violations_exact_sorted (db : List ViolationHistory)
    (u : String) (w now : Int) :
    (ViolationHistoryCRUD.get_user_violations db u w now).Perm
        (db.filter (fun v => v.username == u && decide (now - v.timestamp ≤ w * 3600)))
      ∧ (ViolationHistoryCRUD.get_user_violations db u w now).Pairwise
          (fun a b => b.timestamp ≤ a.timestamp) := by
  have hfun : (fun v : ViolationHistory =>
      v.username == u && decide (now - w * 3600 ≤ v.timestamp))
      = (fun v : ViolationHistory =>
      v.username == u && decide (now - v.timestamp ≤ w * 3600)) := by
    funext v
    have : (now - w * 3600 ≤ v.timestamp) ↔ (now - v.timestamp ≤ w * 3600) := by omega
    rw [decide_eq_decide.mpr this]
  constructor
  · rw [ViolationHistoryCRUD.get_user_violations, hfun]
    exact sortDesc_perm _
  · exact sortDesc_pairwise _

/-- Claim C9: for distinct usernames `u` and `v`, `clear_user u` leaves the
records of `v` exactly as they were (same rows, same order), leaves no record
of `u` behind, returns the number of rows deleted, and deletes nothing but
the rows of `u`. -/
theorem clear_user_frame (db : List ViolationHistory) (u v : String)
    (huv : u ≠ v) :
    (ViolationHistoryCRUD.clear_user db u).fst.filter (fun r => r.username == v)
        = db.filter (fun r => r.username == v)
      ∧ (ViolationHistoryCRUD.clear_user db u).fst.filter (fun r => r.username == u) = []
      ∧ (ViolationHistoryCRUD.clear_user db u).snd
        = (db.filter (fun r => r.username == u)).length
      ∧ (ViolationHistoryCRUD.clear_user db u).fst
        = db.filter (fun r => !(r.username == u)) := by
  refine ⟨?_, ?_, ?_, ?_⟩
  · rw [ViolationHistoryCRUD.clear_user, deleteWhere_fst]
    refine filter_comm_not _ _ ?_ db
    intro r hr
    have hv : r.username = v := by
      have := hr
      simpa using this
    cases hu : (r.username == u)
    · rfl
    · have : r.username = u := by simpa using hu
      exact absurd (this ▸ hv) huv
  · rw [ViolationHistoryCRUD.clear_user, deleteWhere_fst]
    exact filter_sub_filter_not _ _ (fun r hr => hr) db
  · rw [ViolationHistoryCRUD.clear_user, deleteWhere_snd]
  · rw [ViolationHistoryCRUD.clear_user, deleteWhere_fst]

/-- Witness for claim C9 at a concrete two-user table. -/
theorem clear_user_frame_witness :
    ("alice" : String) ≠ "bob"
      ∧ ((ViolationHistoryCRUD.clear_user
            [⟨"alice", 10, 0, 0, none, none⟩, ⟨"bob", 20, 1, 15, none, none⟩]
            "alice").fst.filter (fun r => r.username == "bob")
          = [(⟨"alice", 10, 0, 0, none, none⟩ : ViolationHistory),
             ⟨"bob", 20, 1, 15, none, none⟩].filter (fun r => r.username == "bob")
        ∧ (ViolationHistoryCRUD.clear_user
            [⟨"alice", 10, 0, 0, none, none⟩, ⟨"bob", 20, 1, 15, none, none⟩]
            "alice").fst.filter (fun r => r.username == "alice") = []
        ∧ (ViolationHistoryCRUD.clear_user
            [⟨"alice", 10, 0, 0, none, none⟩, ⟨"bob", 20, 1, 15, none, none⟩]
            "alice").snd
          = ([(⟨"alice", 10, 0, 0, none, none⟩ : ViolationHistory),
              ⟨"bob", 20, 1, 15, none, none⟩].filter
              (fun r => r.username == "alice")).length
        ∧ (ViolationHistoryCRUD.clear_user
            [⟨"alice", 10, 0, 0, none, none⟩, ⟨"bob", 20, 1, 15, none, none⟩]
            "alice").fst
          = [(⟨"alice", 10, 0, 0, none, none⟩ : ViolationHistory),
             ⟨"bob", 20, 1, 15, none, none⟩].filter (fun r => !(r.username == "alice"))) :=
  ⟨by decide,
    clear_user_frame
      [⟨"alice", 10, 0, 0, none, none⟩, ⟨"bob", 20, 1, 15, none, none⟩]
      "alice" "bob" (by decide)⟩

/-! Model of the punishment configuration commands from
`src/telegram_bot/main.py`. The handlers are modelled after `json.loads` has
produced the argument value; the stored `config["punishment"]` mapping is an
`Option PunishmentConfig` (`none` when the key is absent). -/

/-- JSON scalar values, as far as the step-validation code can distinguish
them. Integers and booleans are separate constructors because `json.loads`
produces distinct Python values for them, yet `isinstance(x, int)` is true
for both (Python `bool` is a subclass of `int`); strings and `null` stand
for every value on which `isinstance(x, int)` is false. -/
inductive JVal where
  | jint : Int → JVal
  | jbool : Bool → JVal
  | jstr : String → JVal
  | jnull : JVal
deriving DecidableEq

/-- Python `isinstance(x, int)` on a JSON scalar: true for integers and for
booleans. -/
def pyIsInt : JVal → Bool
  | JVal.jint _ => true
  | JVal.jbool _ => true
  | _ => false

/-- Python `x < 0` on a value that passed `isinstance(x, int)`: booleans
compare as 0 and 1, so they are never negative. -/
def pyLtZero : JVal → Bool
  | JVal.jint n => decide (n < 0)
  | _ => false

/-- String carried by a JSON string value (unused default otherwise). -/
def jvalString : JVal → String
  | JVal.jstr s => s
  | _ => ""

/-- One element of the submitted steps array: a JSON object whose "type" and
"duration" keys may each be present (with any scalar value) or absent. -/
structure StepObj where
  stype : Option JVal
  duration : Option JVal
deriving DecidableEq

/-- Stored `config["punishment"]` mapping: keys `enabled`, `window_hours`
and `steps`; a validated step is kept as its type string and its duration
value. -/
structure PunishmentConfig where
  enabled : Bool
  window_hours : Int
  steps : List (String × JVal)
deriving DecidableEq

/-- Check from `punishment_set_steps`: `step.get("type", "disable")` must be
the string "warning" or the string "disable". -/
def stepTypeOk (s : StepObj) : Bool :=
  let st := s.stype.getD (JVal.jstr "disable")
  st == JVal.jstr "warning" || st == JVal.jstr "disable"

/-- Check from `punishment_set_steps`: `step.get("duration", 0)` must pass
`isinstance(duration, int)` and not be negative. -/
def stepDurOk (s : StepObj) : Bool :=
  let dur := s.duration.getD (JVal.jint 0)
  pyIsInt dur && !(pyLtZero dur)

/-- Validated form of an accepted element: its type string ("disable" when
the key is absent) and its duration value (0 when the key is absent). -/
def validatedOf (s : StepObj) : String × JVal :=
  (jvalString (s.stype.getD (JVal.jstr "disable")), s.duration.getD (JVal.jint 0))

/-- One iteration of the validation loop of `punishment_set_steps`: check
the type, then the duration, and keep the validated element; a failure is
the `ValueError` the loop raises. -/
def validateStep (s : StepObj) : Except String (String × JVal) :=
  if !(stepTypeOk s) then Except.error "Invalid step type"
  else if !(stepDurOk s) then Except.error "Invalid duration"
  else Except.ok (validatedOf s)

/-- The validation loop of `punishment_set_steps`: elements are checked left
to right and the first failure aborts the whole update. -/
def validateSteps : List StepObj → Except String (List (String × JVal))
  | [] => Except.ok []
  | s :: rest =>
    match validateStep s with
    | Except.error e => Except.error e
    | Except.ok v =>
      match validateSteps rest with
      | Except.error e => Except.error e
      | Except.ok vs => Except.ok (v :: vs)

/-- `punishment_set_steps` on the parsed steps array: an empty array or a
validation failure leaves the stored configuration untouched and reports
rejection (`false`); otherwise the validated list replaces the stored steps
(creating the punishment section with `enabled = true`, `window_hours = 72`
when it is absent) and the update is reported accepted (`true`). -/
def punishment_set_steps (steps : List StepObj) (cfg : Option PunishmentConfig) :
    Option PunishmentConfig × Bool :=
  if steps.isEmpty then (cfg, false)
  else
    match validateSteps steps with
    | Except.error _ => (cfg, false)
    | Except.ok vs =>
      match cfg with
      | none => (some ⟨true, 72, vs⟩, true)
      | some c => (some ⟨c.enabled, c.window_hours, vs⟩, true)

/-- `punishment_set_window` on an integer argument: rejected (configuration
untouched) unless `1 ≤ hours ≤ 720`; on acceptance `window_hours` is stored
(creating the punishment section with `enabled = true`, `steps = []` when it
is absent). -/
def punishment_set_window (hours : Int) (cfg : Option PunishmentConfig) :
    Option PunishmentConfig :=
  if hours < 1 ∨ 720 < hours then cfg
  else
    match cfg with
    | none => some ⟨true, hours, []⟩
    | some c => some ⟨c.enabled, hours, c.steps⟩

/-- Wire-format rule of the spec (§6), stated in its words: a duration is
valid when it is a non-negative integer; in the JSON wire format booleans,
strings and null are not integers. -/
def specNonNegInt : JVal → Bool
  | JVal.jint n => decide (0 ≤ n)
  | _ => false

/-- Spec-side test: the element has a present "type" whose value is outside
{"warning", "disable"}. -/
def specPresentBadType (s : StepObj) : Bool :=
  match s.stype with
  | some t => !(t == JVal.jstr "warning" || t == JVal.jstr "disable")
  | none => false

/-- Spec-side test: the element has a present "duration" that is not a
non-negative integer in the JSON sense. -/
def specPresentBadDur (s : StepObj) : Bool :=
  match s.duration with
  | some d => !(specNonNegInt d)
  | none => false

/-- Amended per the code: the element has a present "duration" that is
neither a JSON boolean nor a non-negative integer (Python's
`isinstance(duration, int)` accepts booleans, and booleans are never
negative). -/
def specPresentBadDurAmended (s : StepObj) : Bool :=
  match s.duration with
  | some (JVal.jint n) => decide (n < 0)
  | some (JVal.jbool _) => false
  | some _ => true
  | none => false

/-- Filling the defaults of the validation loop in explicitly: type
"disable" when absent, duration 0 when absent. -/
def fillDefaults (s : StepObj) : StepObj :=
  ⟨some (s.stype.getD (JVal.jstr "disable")), some (s.duration.getD (JVal.jint 0))⟩

/-! Bridging the code's checks with the spec-side predicates. -/

theorem stepTypeOk_eq (s : StepObj) : stepTypeOk s = !(specPresentBadType s) := by
  rcases s with ⟨t, d⟩
  cases t with
  | none => rfl
  | some tv => simp [stepTypeOk, specPresentBadType]

theorem stepDurOk_eq (s : StepObj) : stepDurOk s = !(specPresentBadDurAmended s) := by
  rcases s with ⟨t, d⟩
  cases d with
  | none => rfl
  | some dv =>
    cases dv with
    | jint n => simp [stepDurOk, specPresentBadDurAmended, pyIsInt, pyLtZero]
    | jbool b => rfl
    | jstr sv => rfl
    | jnull => rfl

theorem stepOk_iff_amended (s : StepObj) :
    (stepTypeOk s && stepDurOk s)
      = !(specPresentBadType s || specPresentBadDurAmended s) := by
  rw [stepTypeOk_eq, stepDurOk_eq]
  cases specPresentBadType s <;> cases specPresentBadDurAmended s <;> rfl

theorem amended_imp_specBadDur (s : StepObj)
    (h : specPresentBadDurAmended s = true) : specPresentBadDur s = true := by
  rcases s with ⟨t, d⟩
  cases d with
  | none => exact h
  | some dv =>
    cases dv with
    | jint n =>
      simp [specPresentBadDurAmended] at h
      simp [specPresentBadDur, specNonNegInt]
      omega
    | jbool b => exact absurd h (by simp [specPresentBadDurAmended])
    | jstr sv => rfl
    | jnull => rfl

theorem validateStep_eq_ok (s : StepObj) (h1 : stepTypeOk s = true)
    (h2 : stepDurOk s = true) : validateStep s = Except.ok (validatedOf s) := by
  rw [validateStep, h1, h2]
  rfl

theorem validateStep_eq_error (s : StepObj)
    (h : stepTypeOk s = false ∨ stepDurOk s = false) :
    ∃ e, validateStep s = Except.error e := by
  by_cases h1 : stepTypeOk s = true
  · have h2 : stepDurOk s = false := by
      rcases h with hx | hx
      · rw [h1] at hx
        exact absurd hx (by simp)
      · exact hx
    exact ⟨"Invalid duration", by rw [validateStep, h1, h2]; rfl⟩
  · have h1f : stepTypeOk s = false := by
      cases hv : stepTypeOk s
      · rfl
      · exact absurd hv h1
    exact ⟨"Invalid step type", by rw [validateStep, h1f]; rfl⟩

theorem validateSteps_ok (steps : List StepObj)
    (h : ∀ s ∈ steps, stepTypeOk s = true ∧ stepDurOk s = true) :
    validateSteps steps = Except.ok (steps.map validatedOf) := by
  induction steps with
  | nil => rfl
  | cons s rest ih =>
    have hs := h s (List.mem_cons_self s rest)
    rw [validateSteps, validateStep_eq_ok s hs.1 hs.2,
      ih (fun x hx => h x (List.mem_cons_of_mem s hx))]
    rfl

theorem validateSteps_error (steps : List StepObj)
    (h : ∃ s ∈ steps, stepTypeOk s = false ∨ stepDurOk s = false) :
    ∃ e, validateSteps steps = Except.error e := by
  induction steps with
  | nil =>
    rcases h with ⟨s, hs, _⟩
    exact absurd hs (List.not_mem_nil s)
  | cons s rest ih =>
    rcases h with ⟨x, hx, hbad⟩
    rcases List.mem_cons.mp hx with rfl | hxr
    · obtain ⟨e, he⟩ := validateStep_eq_error x hbad
      exact ⟨e, by rw [validateSteps, he]⟩
    · cases hv : validateStep s with
      | error e => exact ⟨e, by rw [validateSteps, hv]⟩
      | ok v =>
        obtain ⟨e, he⟩ := ih ⟨x, hxr, hbad⟩
        exact ⟨e, by rw [validateSteps, hv, he]⟩

theorem validateSteps_error_rev (steps : List StepObj)
    (h : ∃ e, validateSteps steps = Except.error e) :
    ∃ s ∈ steps, stepTypeOk s = false ∨ stepDurOk s = false := by
  induction steps with
  | nil =>
    rcases h with ⟨e, he⟩
    exact absurd he (by rw [validateSteps]; intro hx; cases hx)
  | cons s rest ih =>
    by_cases h1 : stepTypeOk s = true
    · by_cases h2 : stepDurOk s = true
      · rcases h with ⟨e, he⟩
        rw [validateSteps, validateStep_eq_ok s h1 h2] at he
        cases hv : validateSteps rest with
        | error e2 =>
          obtain ⟨x, hx, hbad⟩ := ih ⟨e2, hv⟩
          exact ⟨x, List.mem_cons_of_mem s hx, hbad⟩
        | ok vs =>
          rw [hv] at he
          cases he
      · refine ⟨s, List.mem_cons_self s rest, Or.inr ?_⟩
        cases hv : stepDurOk s
        · rfl
        · exact absurd hv h2
    · refine ⟨s, List.mem_cons_self s rest, Or.inl ?_⟩
      cases hv : stepTypeOk s
      · rfl
      · exact absurd hv h1

/-- Claim C6 counterexample: 721 is an integer ≥ 1, but the code rejects
every value above 720 (`if hours < 1 or hours > 720`), leaving the stored
configuration unchanged instead of storing `window_hours = 721`. -/
theorem punishment_set_window_721_counterexample :
    (1 : Int) ≤ 721
      ∧ punishment_set_window 721 (some ⟨true, 72, []⟩) = some ⟨true, 72, []⟩
      ∧ ¬ ((punishment_set_window 721 (some ⟨true, 72, []⟩)).map
            PunishmentConfig.window_hours = some 721) := by
  refine ⟨by decide, by decide, by decide⟩

/-- Claim C6 (amended): `punishment_set_window` accepts its integer argument
exactly when `1 ≤ hours ≤ 720`, storing `window_hours = hours` (and keeping
the other fields, with defaults `enabled = true`, `steps = []` when the
punishment section was absent); any value below 1 or above 720 is rejected
and the stored configuration is unchanged. -/
theorem punishment_set_window_range (hours : Int) (cfg : Option PunishmentConfig) :
    ((1 ≤ hours ∧ hours ≤ 720) →
        punishment_set_window hours cfg
          = some ⟨(cfg.map PunishmentConfig.enabled).getD true, hours,
                  (cfg.map PunishmentConfig.steps).getD []⟩)
    ∧ ((hours < 1 ∨ 720 < hours) → punishment_set_window hours cfg = cfg) := by
  constructor
  · intro h
    have hcond : ¬ (hours < 1 ∨ 720 < hours) := by omega
    unfold punishment_set_window
    rw [if_neg hcond]
    cases cfg with
    | none => rfl
    | some c => rfl
  · intro h
    unfold punishment_set_window
    rw [if_pos h]

/-- Witness for claim C6 at hours 100 over an existing configuration. -/
theorem punishment_set_window_range_witness :
    punishment_set_window 100 (some ⟨false, 48, []⟩) = some ⟨false, 100, []⟩ :=
  (punishment_set_window_range 100 (some ⟨false, 48, []⟩)).1 ⟨by decide, by decide⟩

/-- Claim C2 counterexample: the steps array
`[{"type": "disable", "duration": true}]` has a duration that is not a
non-negative integer (it is the JSON boolean `true`), so the claim requires
the update to be rejected with the configuration unchanged; the code accepts
it — Python's `isinstance(True, int)` holds and `True < 0` is false — and
replaces the stored steps. -/
theorem punishment_set_steps_bool_duration_counterexample :
    specNonNegInt (JVal.jbool true) = false
      ∧ punishment_set_steps [⟨some (JVal.jstr "disable"), some (JVal.jbool true)⟩]
          (some ⟨true, 72, []⟩)
          = (some ⟨true, 72, [("disable", JVal.jbool true)]⟩, true)
      ∧ ¬ (punishment_set_steps [⟨some (JVal.jstr "disable"), some (JVal.jbool true)⟩]
            (some ⟨true, 72, []⟩)
            = (some ⟨true, 72, []⟩, false)) := by
  refine ⟨by decide, by decide, by decide⟩

/-- Claim C2 (amended): an update is rejected — stored steps, enabled flag
and window all unchanged — exactly when the array is empty, or some element
has a present type outside {"warning", "disable"}, or some element has a
present duration that is neither a JSON boolean nor a non-negative integer
(Python's `isinstance(duration, int)` accepts booleans, and booleans are
never negative); otherwise the stored steps are replaced by exactly the
validated list, each element reduced to its type ("disable" when absent) and
its duration (0 when absent). -/
theorem punishment_set_steps_validation (steps : List StepObj)
    (cfg : Option PunishmentConfig) :
    ((steps.isEmpty
        || steps.any (fun s => specPresentBadType s || specPresentBadDurAmended s)) = true →
        punishment_set_steps steps cfg = (cfg, false))
    ∧ ((steps.isEmpty
        || steps.any (fun s => specPresentBadType s || specPresentBadDurAmended s)) = false →
        punishment_set_steps steps cfg
          = (some ⟨(cfg.map PunishmentConfig.enabled).getD true,
                   (cfg.map PunishmentConfig.window_hours).getD 72,
                   steps.map validatedOf⟩, true)) := by
  constructor
  · intro h
    rcases Bool.or_eq_true_iff.mp h with hemp | hany
    · unfold punishment_set_steps
      rw [if_pos hemp]
    · by_cases hemp : steps.isEmpty
      · unfold punishment_set_steps
        rw [if_pos hemp]
      · have hbad : ∃ s ∈ steps, stepTypeOk s = false ∨ stepDurOk s = false := by
          rcases List.any_eq_true.mp hany with ⟨s, hs, hsbad⟩
          refine ⟨s, hs, ?_⟩
          have hok := stepOk_iff_amended s
          rw [hsbad] at hok
          rcases Bool.and_eq_false_iff.mp hok with h1 | h1
          · exact Or.inl h1
          · exact Or.inr h1
        obtain ⟨e, he⟩ := validateSteps_error steps hbad
        unfold punishment_set_steps
        rw [if_neg hemp, he]
  · intro h
    rcases Bool.or_eq_false_iff.mp h with ⟨hemp, hall⟩
    have hgood : ∀ s ∈ steps, stepTypeOk s = true ∧ stepDurOk s = true := by
      intro s hs
      have hsf : (specPresentBadType s || specPresentBadDurAmended s) = false := by
        rcases List.any_eq_false.mp hall s hs with hsf2
        cases hv : (specPresentBadType s || specPresentBadDurAmended s)
        · rfl
        · exact absurd hv hsf2
      have hok := stepOk_iff_amended s
      rw [hsf] at hok
      exact Bool.and_eq_true_iff.mp hok
    unfold punishment_set_steps
    rw [if_neg (by rw [hemp]; exact Bool.false_ne_true), validateSteps_ok steps hgood]
    cases cfg with
    | none => rfl
    | some c => rfl

/-- Witness for claim C2: a present invalid type string is rejected and the
configuration is unchanged. -/
theorem punishment_set_steps_validation_witness :
    punishment_set_steps [⟨some (JVal.jstr "ban"), none⟩] (some ⟨true, 72, []⟩)
      = (some ⟨true, 72, []⟩, false) :=
  (punishment_set_steps_validation [⟨some (JVal.jstr "ban"), none⟩]
    (some ⟨true, 72, []⟩)).1 (by decide)

theorem validateStep_fillDefaults (s : StepObj) :
    validateStep (fillDefaults s) = validateStep s := by
  rcases s with ⟨t, d⟩
  cases t <;> cases d <;> rfl

theorem validateSteps_map_fillDefaults (steps : List StepObj) :
    validateSteps (steps.map fillDefaults) = validateSteps steps := by
  induction steps with
  | nil => rfl
  | cons s rest ih =>
    rw [List.map_cons]
    simp only [validateSteps]
    rw [validateStep_fillDefaults, ih]

theorem isEmpty_map_fillDefaults (steps : List StepObj) :
    (steps.map fillDefaults).isEmpty = steps.isEmpty := by
  cases steps with
  | nil => rfl
  | cons s rest => rfl

/-- Claim C10: an element lacking the "type" key is treated as type
"disable" and an element lacking the "duration" key as duration 0 — filling
those defaults in explicitly does not change the handler's result on any
configuration — and a non-empty array is rejected only when some element has
a present type outside {"warning", "disable"} or a present duration that is
not a non-negative integer. -/
theorem punishment_set_steps_defaults_and_rejection (steps : List StepObj)
    (cfg : Option PunishmentConfig) :
    punishment_set_steps (steps.map fillDefaults) cfg = punishment_set_steps steps cfg
      ∧ (steps.isEmpty = false → (punishment_set_steps steps cfg).snd = false →
          steps.any (fun s => specPresentBadType s || specPresentBadDur s) = true) := by
  constructor
  · unfold punishment_set_steps
    rw [validateSteps_map_fillDefaults, isEmpty_map_fillDefaults]
  · intro hemp hsnd
    have hne : ¬ (steps.isEmpty = true) := by rw [hemp]; exact Bool.false_ne_true
    cases hv : validateSteps steps with
    | ok vs =>
      unfold punishment_set_steps at hsnd
      rw [if_neg hne, hv] at hsnd
      cases cfg with
      | none => exact absurd hsnd (by simp)
      | some c => exact absurd hsnd (by simp)
    | error e =>
      obtain ⟨s, hs, hbad⟩ := validateSteps_error_rev steps ⟨e, hv⟩
      refine List.any_eq_true.mpr ⟨s, hs, ?_⟩
      rcases hbad with h1 | h1
      · have hb : specPresentBadType s = true := by
          have := stepTypeOk_eq s
          rw [h1] at this
          cases hv2 : specPresentBadType s
          · rw [hv2] at this
            cases this
          · rfl
        rw [hb]
        rfl
      · have hb : specPresentBadDurAmended s = true := by
          have := stepDurOk_eq s
          rw [h1] at this
          cases hv2 : specPresentBadDurAmended s
          · rw [hv2] at this
            cases this
          · rfl
        have hb2 := amended_imp_specBadDur s hb
        rw [hb2]
        exact Bool.or_true _
/-- Witness for claim C10: a negative present duration is rejected and is
reported as a spec-side bad duration. -/
theorem punishment_set_steps_defaults_and_rejection_witness :
    ([(⟨none, some (JVal.jint (-5))⟩ : StepObj)].any
        (fun s => specPresentBadType s || specPresentBadDur s)) = true :=
  (punishment_set_steps_defaults_and_rejection
    [⟨none, some (JVal.jint (-5))⟩] none).2 (by decide) (by decide)

/-! Model of the punishment policy and the warning system. The bot imports
`utils.punishment_system` and `utils.warning_system`, but those files are
not part of the repository snapshot, so the definitions below are modelled
from the specification text (§3, §4.1, §4.3). -/

/-- Modelled from the spec: `utils/punishment_system.py` is missing from the
repository. §3 defines a punishment step as a type ("warning" or "disable")
and a duration in minutes (0 = permanent). -/
structure PunishmentStep where
  ptype : String
  duration_minutes : Int
deriving DecidableEq

/-- Modelled from the spec: the escalation index applied at violation count
`n` is `clamp(n, 0, len(steps) - 1)`, which for natural `n` is
`min n (len(steps) - 1)`; it is the severity level of the step applied. -/
def stepIndex (steps : List PunishmentStep) (n : Nat) : Nat :=
  min n (steps.length - 1)

/-- Modelled from the spec: `step_for_count(n)` returns
`steps[clamp(n, 0, len(steps)-1)]` (§4.1); the index is in range for every
non-empty steps list. -/
def step_for_count (steps : List PunishmentStep) (h : steps ≠ []) (n : Nat) :
    PunishmentStep :=
  steps.get ⟨stepIndex steps n, by
    have hl : 0 < steps.length := List.length_pos.mpr h
    exact Nat.lt_of_le_of_lt (Nat.min_le_right _ _) (Nat.sub_lt hl Nat.one_pos)⟩

/-- Claim C3: for a non-empty steps sequence, `step_for_count n` is
`steps[min n (len-1)]` (shown through `get?`, so the access is never out of
range), returns `steps[0]` at `n = 0`, applies a monotonically
non-decreasing escalation index as `n` grows, and equals the last step for
every `n ≥ len - 1` (saturation). -/
theorem step_for_count_clamp (steps : List PunishmentStep) (h : steps ≠ [])
    (m n : Nat) (hmn : m ≤ n) :
    steps.get? (min n (steps.length - 1)) = some (step_for_count steps h n)
      ∧ steps.get? 0 = some (step_for_count steps h 0)
      ∧ stepIndex steps m ≤ stepIndex steps n
      ∧ (steps.length - 1 ≤ n → step_for_count steps h n = steps.getLast h) := by
  have hl : 0 < steps.length := List.length_pos.mpr h
  have key : ∀ k : Nat,
      steps.get? (min k (steps.length - 1)) = some (step_for_count steps h k) := by
    intro k
    have hb : min k (steps.length - 1) < steps.length :=
      Nat.lt_of_le_of_lt (Nat.min_le_right _ _) (Nat.sub_lt hl Nat.one_pos)
    exact List.get?_eq_get hb
  refine ⟨key n, ?_, ?_, ?_⟩
  · have h0 := key 0
    rwa [Nat.zero_min] at h0
  · unfold stepIndex
    omega
  · intro hn
    have h1 : min n (steps.length - 1) = steps.length - 1 := Nat.min_eq_right hn
    have k1 := key n
    rw [h1] at k1
    have hb : steps.length - 1 < steps.length := Nat.sub_lt hl Nat.one_pos
    have k2 : steps.get? (steps.length - 1) = some (steps.get ⟨steps.length - 1, hb⟩) :=
      List.get?_eq_get hb
    have k3 : steps.getLast h = steps.get ⟨steps.length - 1, hb⟩ := by
      rw [List.getLast_eq_get]
    rw [k2] at k1
    rw [k3]
    exact (Option.some.inj k1).symm

/-- Witness for claim C3: with three configured steps, count 5 saturates at
the last (permanent) step. -/
theorem step_for_count_clamp_witness :
    step_for_count [(⟨"warning", 0⟩ : PunishmentStep), ⟨"disable", 15⟩, ⟨"disable", 0⟩]
        (by decide) 5
      = ([(⟨"warning", 0⟩ : PunishmentStep), ⟨"disable", 15⟩, ⟨"disable", 0⟩]).getLast
          (by decide) :=
  (step_for_count_clamp
    [(⟨"warning", 0⟩ : PunishmentStep), ⟨"disable", 15⟩, ⟨"disable", 0⟩]
    (by decide) 1 5 (by decide)).2.2.2 (by decide)

/-- Modelled from the spec: one periodic snapshot of a monitored user
(§3): observation time, distinct-IP count, and the observed IP set. -/
structure Snapshot where
  timestamp : Int
  ip_count : Int
  ips : List String
deriving DecidableEq

/-- Modelled from the spec: `utils/warning_system.py` is missing from the
repository. §3 defines a `MonitoringWarning` with username, creation time,
monitoring duration in seconds, last observed IP count, and an append-only
snapshot list. -/
structure MonitoringWarning where
  username : String
  created_at : Int
  monitoring_duration : Int
  ip_count : Int
  snapshots : List Snapshot
deriving DecidableEq

/-- Modelled from the spec: `is_monitoring_active()` is a derived predicate
of the current time, not stored state — it is false exactly once
`now - created_at >= monitoring_duration` (§4.3). -/
def is_monitoring_active (w : MonitoringWarning) (now : Int) : Bool :=
  decide (now - w.created_at < w.monitoring_duration)

/-- Claim C7: `is_monitoring_active` is true exactly while
`now - created_at < monitoring_duration` and false exactly once
`now - created_at ≥ monitoring_duration`, with no stored transition — it is
a function of the warning and the clock only; with duration 240 it is true
at creation time + 100 and false at creation time + 241. -/
theorem is_monitoring_active_derived (w : MonitoringWarning) (now : Int) :
    (is_monitoring_active w now = true ↔ now - w.created_at < w.monitoring_duration)
      ∧ (is_monitoring_active w now = false ↔ w.monitoring_duration ≤ now - w.created_at)
      ∧ (w.monitoring_duration = 240 →
          is_monitoring_active w (w.created_at + 100) = true
            ∧ is_monitoring_active w (w.created_at + 241) = false) := by
  refine ⟨?_, ?_, ?_⟩
  · simp [is_monitoring_active]
  · simp only [is_monitoring_active, decide_eq_false_iff_not]
    constructor
    · intro hx
      omega
    · intro hx
      omega
  · intro h240
    constructor
    · simp only [is_monitoring_active, h240, decide_eq_true_eq]
      omega
    · simp only [is_monitoring_active, h240, decide_eq_false_iff_not]
      omega

/-- Witness for claim C7: a warning created at time 1000 with duration 240
is active at 1100 and inactive at 1241. -/
theorem is_monitoring_active_derived_witness :
    is_monitoring_active ⟨"alice", 1000, 240, 3, []⟩ 1100 = true
      ∧ is_monitoring_active ⟨"alice", 1000, 240, 3, []⟩ 1241 = false :=
  (is_monitoring_active_derived ⟨"alice", 1000, 240, 3, []⟩ 0).2.2 (by decide)

/-- Modelled from the spec: the warning registry is a mapping from username
to `MonitoringWarning` (§3); looking up a username with no entry yields
none. -/
def lookupWarning (warnings : List (String × MonitoringWarning)) (u : String) :
    Option MonitoringWarning :=
  (warnings.find? (fun p => p.fst == u)).map Prod.snd

/-- Modelled from the spec: result record of
`analyze_user_activity_patterns` (§4.3); the mean and the change frequency
are Python floats, modelled as exact rationals. -/
structure ActivityAnalysis where
  total_snapshots : Nat
  peak_ip_count : Int
  average_ip_count : Rat
  ip_change_frequency : Rat
  consistently_active_ips : List String
deriving DecidableEq

/-- Modelled from the spec: two observed IP lists describe the same IP set
when each contains every element of the other. -/
def ipSetEq (xs ys : List String) : Bool :=
  xs.all (fun x => ys.contains x) && ys.all (fun y => xs.contains y)

/-- Modelled from the spec: number of transitions between consecutive
snapshots whose IP set differs. -/
def countChanges : List Snapshot → Nat
  | a :: b :: rest => (if ipSetEq a.ips b.ips then 0 else 1) + countChanges (b :: rest)
  | _ => 0

/-- Modelled from the spec: the time span covered by the snapshots that
contain the given IP (0 when there are none). -/
def ipSpan (snaps : List Snapshot) (ip : String) : Int :=
  match (snaps.filter (fun s => s.ips.contains ip)).map (fun s => s.timestamp) with
  | [] => 0
  | t :: rest => rest.foldl max t - rest.foldl min t

/-- Modelled from the spec: `analyze_user_activity_patterns` over the
snapshot list of one warning (§4.3): snapshot count, peak and mean of the
ip_count values, fraction of consecutive-snapshot transitions whose IP set
differs, and the IPs whose snapshots span at least 240 seconds
("4+ minutes"); every metric is zero or empty when there are no
snapshots. -/
def analyzeSnapshots (snaps : List Snapshot) : ActivityAnalysis :=
  let counts := snaps.map (fun s => s.ip_count)
  let total := snaps.length
  let peak := counts.foldl max 0
  let avg : Rat :=
    if total = 0 then 0 else ((counts.foldl (fun a b => a + b) 0 : Int) : Rat) / (total : Rat)
  let freq : Rat :=
    if total ≤ 1 then 0 else (countChanges snaps : Rat) / (((total - 1 : Nat) : Nat) : Rat)
  let active :=
    ((snaps.map (fun s => s.ips)).flatten).dedup.filter (fun ip => decide (240 ≤ ipSpan snaps ip))
  ⟨total, peak, avg, freq, active⟩

/-- Modelled from the spec: `analyze_user_activity_patterns(username)` looks
the username up in the registry and analyzes its snapshots; an unknown
username yields the all-zero analysis rather than an error (§4.3). The
function is total, so no execution path raises. -/
def analyze_user_activity_patterns (warnings : List (String × MonitoringWarning))
    (u : String) : ActivityAnalysis :=
  match lookupWarning warnings u with
  | none => ⟨0, 0, 0, 0, []⟩
  | some w => analyzeSnapshots w.snapshots

/-- Claim C8: for a username with no warning entry at all, and for one whose
warning has recorded zero snapshots, the analysis has total_snapshots 0,
peak 0, average 0, change frequency 0 and an empty consistently-active IP
set; the analysis function is total, so neither case is an error. -/
theorem analyze_zero_snapshots (warnings : List (String × MonitoringWarning))
    (u : String) :
    (lookupWarning warnings u = none →
        analyze_user_activity_patterns warnings u = ⟨0, 0, 0, 0, []⟩)
      ∧ (∀ w, lookupWarning warnings u = some w → w.snapshots = [] →
          analyze_user_activity_patterns warnings u = ⟨0, 0, 0, 0, []⟩) := by
  constructor
  · intro h
    unfold analyze_user_activity_patterns
    rw [h]
  · intro w hw hsnap
    unfold analyze_user_activity_patterns
    rw [hw]
    show analyzeSnapshots w.snapshots = _
    rw [hsnap]
    rfl

/-- Witness for claim C8: a monitored user whose warning has recorded no
snapshots yet gets the all-zero analysis. -/
theorem analyze_zero_snapshots_witness :
    analyze_user_activity_patterns [("alice", ⟨"alice", 1000, 240, 3, []⟩)] "alice"
      = ⟨0, 0, 0, 0, []⟩ :=
  (analyze_zero_snapshots [("alice", ⟨"alice", 1000, 240, 3, []⟩)] "alice").2
    ⟨"alice", 1000, 240, 3, []⟩ (by decide) rfl
